import Mathlib

/-!
Verification development for the contact-manager program in `HW7.1.py`.

The Python source is shallowly embedded: classes become structures, in-place
mutation becomes explicit state passing (every mutation of a record found in
the `AddressBook` dict is written back at the point where Python would mutate
the shared object), and Python exceptions become an explicit `Except` result.
The `input_error` decorator is a function on handler results that catches
exactly the exception classes the Python decorator catches (`ValueError`,
`IndexError`, `KeyError`); any other exception (notably `AttributeError`,
raised when a handler dereferences the `None` returned by `find`) passes
through uncaught, exactly as in the source.

Strings are modelled as Lean `String`s over their code points.  `str.isdigit`
is modelled by `Char.isDigit`, which coincides with CPython `str.isdigit` on
ASCII characters; theorems about it are scoped to ASCII strings.
`datetime.strptime(value, '%d.%m.%Y')` is modelled after CPython's
`_strptime` regular expressions: `%d` matches `3[01]|[12][0-9]|0[1-9]|[1-9]`
(a one- or two-digit day 1..31, leading zero optional), `%m` matches
`1[0-2]|0[1-9]|[1-9]` (a one- or two-digit month 1..12), `%Y` matches exactly
four digits, the whole string must be consumed, and the resulting
year/month/day triple must be an existing calendar date with year at least 1
(`datetime.MINYEAR`), otherwise `ValueError` is raised.
The `datetime` values this program builds via `strptime` and `replace`
always carry midnight as time of day, so they are represented by their
date; `datetime.today()` also carries the current time of day, so it is
modelled by an explicit instant parameter (date plus microseconds since
midnight).  Chronological comparison of datetimes and
`timedelta(days = n)` addition are modelled on a microsecond timeline
(rata-die day number times the microseconds of a day, plus the time of
day), which is order-isomorphic to datetime comparison for valid dates and
times of day.
`strftime('%d.%m.%Y')` is modelled with zero-padded two-digit day and month
and zero-padded four-digit year.
-/

namespace HW7

/-- A calendar date as carried by a Python `datetime` (time of day is always
midnight in this program, so it is omitted). -/
structure PyDate where
  day : Nat
  month : Nat
  year : Nat
deriving DecidableEq

/-- The Python exceptions this program can raise.  `attributeError` carries
just the missing attribute's name (CPython's message also names the type). -/
inductive PyErr where
  | valueError (msg : String)
  | indexError (msg : String)
  | keyError (msg : String)
  | attributeError (attr : String)
deriving DecidableEq

/-- Gregorian leap-year test, as in Python's `calendar.isleap` /
`datetime`. -/
def isLeapYear (y : Nat) : Bool :=
  y % 4 == 0 && (y % 100 != 0 || y % 400 == 0)

/-- Number of days of month `m` in year `y` (Python `calendar.monthrange`). -/
def daysInMonth (y m : Nat) : Nat :=
  if m = 2 then (if isLeapYear y then 29 else 28)
  else if m = 4 ∨ m = 6 ∨ m = 9 ∨ m = 11 then 30
  else 31

/-- Day number of a date in the proleptic Gregorian calendar (rata die,
shifted so that the formula stays in `Nat`; only differences and order
matter).  Standard civil-from-days algorithm. -/
def ratadie (y m d : Nat) : Nat :=
  let y2 := if m ≤ 2 then y - 1 else y
  let era := y2 / 400
  let yoe := y2 % 400
  let mp := if 2 < m then m - 3 else m + 9
  let doy := (153 * mp + 2) / 5 + (d - 1)
  let doe := yoe * 365 + yoe / 4 - yoe / 100 + doy
  era * 146097 + doe

/-- The day number of a `PyDate`; chronological comparison of the program's
datetimes (all at midnight) coincides with `Nat` comparison of `toOrd`, and
`+ timedelta(days = n)` adds `n` to it. -/
def PyDate.toOrd (d : PyDate) : Nat :=
  ratadie d.year d.month d.day

/-- Microseconds in a day (`datetime` stores the time of day with
microsecond resolution). -/
def microsPerDay : Nat := 86400000000

/-- A full `datetime` instant: a date plus the time of day in microseconds
(a real `datetime` always has `micros < microsPerDay`).
`datetime.today()` returns such an instant with the current clock time;
the datetimes this program builds from `strptime`/`replace` always have
`micros = 0` (midnight). -/
structure PyDateTime where
  date : PyDate
  micros : Nat
deriving DecidableEq

/-- Position of an instant on the microsecond timeline; chronological
comparison of datetimes coincides with `Nat` comparison of `toMicros`
(for times of day below `microsPerDay`), and `+ timedelta(days = n)` adds
`n * microsPerDay` to it. -/
def PyDateTime.toMicros (t : PyDateTime) : Nat :=
  t.date.toOrd * microsPerDay + t.micros

/-- Numeric value of a digit string (the digits have already been checked). -/
def digitsVal (cs : List Char) : Nat :=
  cs.foldl (fun a c => a * 10 + (c.toNat - 48)) 0

/-- Python `str.isdigit`, restricted to ASCII: nonempty and all characters
are decimal digits.  (On non-ASCII input CPython also accepts other Unicode
digit characters; all theorems using this are scoped to ASCII strings.) -/
def py_isdigit (s : String) : Bool :=
  !s.data.isEmpty && s.data.all Char.isDigit

/-- The validation test of `Phone.__init__`:
`value.isdigit() and len(value) == 10` (Python `len` counts code points,
i.e. the length of `s.data`). -/
def phone_valid (s : String) : Bool :=
  py_isdigit s && s.data.length == 10

/-- Constructor of the `Phone` field class: raises
`ValueError("Phone number must be 10 digits.")` unless the value is a
ten-digit string, in which case the string is stored unchanged. -/
def Phone_init (s : String) : Except PyErr String :=
  if phone_valid s then .ok s
  else .error (.valueError "Phone number must be 10 digits.")

/-- Split a character list at every `'.'` (the separator structure of the
`%d.%m.%Y` format); always returns at least one (possibly empty) group. -/
def splitDots : List Char → List (List Char)
  | [] => [[]]
  | c :: cs =>
    if c = '.' then [] :: splitDots cs
    else
      match splitDots cs with
      | g :: gs => (c :: g) :: gs
      | [] => [[c]]

/-- `datetime.strptime(s, '%d.%m.%Y')` per CPython's `_strptime`: the string
must be day `.` month `.` year where the day is one or two digits with value
1..31, the month is one or two digits with value 1..12, the year is exactly
four digits, and the triple must be an existing calendar date with year ≥ 1
(`datetime` validation).  Returns the parsed date, or `none` for the
`ValueError` cases. -/
def strptime_dmY (s : String) : Option PyDate :=
  match splitDots s.data with
  | [ds, ms, ys] =>
    if ds.all Char.isDigit ∧ ms.all Char.isDigit ∧ ys.all Char.isDigit ∧
        1 ≤ ds.length ∧ ds.length ≤ 2 ∧ 1 ≤ digitsVal ds ∧ digitsVal ds ≤ 31 ∧
        1 ≤ ms.length ∧ ms.length ≤ 2 ∧ 1 ≤ digitsVal ms ∧ digitsVal ms ≤ 12 ∧
        ys.length = 4 ∧ 1 ≤ digitsVal ys ∧
        digitsVal ds ≤ daysInMonth (digitsVal ys) (digitsVal ms) then
      some ⟨digitsVal ds, digitsVal ms, digitsVal ys⟩
    else none
  | _ => none

/-- Constructor of the `Birthday` field class: stores the parsed datetime, or
raises `ValueError("Invalid date format. Use DD.MM.YYYY")` when `strptime`
raises. -/
def Birthday_init (s : String) : Except PyErr PyDate :=
  match strptime_dmY s with
  | some d => .ok d
  | none => .error (.valueError "Invalid date format. Use DD.MM.YYYY")

/-- Zero-padded two-digit rendering (strftime `%d` / `%m`). -/
def pad2 (n : Nat) : String :=
  if n < 10 then "0" ++ toString n else toString n

/-- Zero-padded four-digit rendering (strftime `%Y`). -/
def pad4 (n : Nat) : String :=
  if n < 10 then "000" ++ toString n
  else if n < 100 then "00" ++ toString n
  else if n < 1000 then "0" ++ toString n
  else toString n

/-- `d.strftime('%d.%m.%Y')`. -/
def strftime_dmY (d : PyDate) : String :=
  pad2 d.day ++ "." ++ pad2 d.month ++ "." ++ pad4 d.year

/-- A `Record`: a name, an ordered list of validated phone values, and an
optional birthday.  The `Phone` objects are represented by their stored
string values. -/
structure Record where
  name : String
  phones : List String
  birthday : Option PyDate
deriving DecidableEq

/-- `Record.__init__(name)`. -/
def Record.mkNew (name : String) : Record :=
  ⟨name, [], none⟩

/-- `Record.add_phone`: validates via `Phone(phone)` and appends; the
`ValueError` from `Phone.__init__` propagates. -/
def Record.add_phone (r : Record) (phone : String) : Except PyErr Record :=
  match Phone_init phone with
  | .ok v => .ok { r with phones := r.phones ++ [v] }
  | .error e => .error e

/-- `Record.remove_phone`: keeps exactly the phones whose value differs from
`phone`. -/
def Record.remove_phone (r : Record) (phone : String) : Record :=
  { r with phones := r.phones.filter (fun p => p ≠ phone) }

/-- `Record.add_birthday`: validates via `Birthday(birthday)` and replaces
any stored birthday; the `ValueError` propagates. -/
def Record.add_birthday (r : Record) (birthday : String) : Except PyErr Record :=
  match Birthday_init birthday with
  | .ok d => .ok { r with birthday := some d }
  | .error e => .error e

/-- The `AddressBook`: `self.records` is a dict from name to record.  It is
modelled as the insertion-ordered list of records; the key of each entry is
`record.name`, as in `add_record`. -/
structure AddressBook where
  records : List Record
deriving DecidableEq

/-- The empty book (`AddressBook()`). -/
def AddressBook.empty : AddressBook := ⟨[]⟩

/-- `AddressBook.find`: `self.records.get(name, None)`. -/
def AddressBook.find (book : AddressBook) (name : String) : Option Record :=
  book.records.find? (fun r => r.name = name)

/-- `AddressBook.add_record`: `self.records[record.name.value] = record`.
A dict assignment keeps the position of an existing key and appends a new
key at the end. -/
def AddressBook.add_record (book : AddressBook) (r : Record) : AddressBook :=
  if (book.records.find? (fun q => q.name = r.name)).isSome then
    ⟨book.records.map (fun q => if q.name = r.name then r else q)⟩
  else
    ⟨book.records ++ [r]⟩

/-- Write-back of an in-place mutation: the record object obtained from
`find` is shared with the dict, so mutating it updates the entry under its
(unchanged) name. -/
def AddressBook.setRecord (book : AddressBook) (r : Record) : AddressBook :=
  ⟨book.records.map (fun q => if q.name = r.name then r else q)⟩

/-- `datetime.replace(year = y)`: revalidates the date and raises
`ValueError("day is out of range for month")` for Feb 29 in a non-leap
target year. -/
def date_replace_year (d : PyDate) (y : Nat) : Except PyErr PyDate :=
  if d.day ≤ daysInMonth y d.month then .ok ⟨d.day, d.month, y⟩
  else .error (.valueError "day is out of range for month")

/-- Loop body of `get_upcoming_birthdays` over the remaining records; raises
(as `.error`) when `replace` raises.  `today` is the full
`datetime.today()` instant (date and time of day); `birthday_this_year`
comes from `strptime`/`replace` and is a midnight datetime, so the window
test `today <= birthday_this_year <= today + timedelta(days=7)` compares
`today`'s timeline position against the occurrence's midnight. -/
def upcoming_go (today : PyDateTime) : List Record → Except PyErr (List (String × String))
  | [] => .ok []
  | r :: rest =>
    match r.birthday with
    | none => upcoming_go today rest
    | some b =>
      match date_replace_year b today.date.year with
      | .error e => .error e
      | .ok bty =>
        if today.toMicros ≤ (⟨bty, 0⟩ : PyDateTime).toMicros ∧
            (⟨bty, 0⟩ : PyDateTime).toMicros ≤ today.toMicros + 7 * microsPerDay then
          match upcoming_go today rest with
          | .ok l => .ok ((r.name, strftime_dmY bty) :: l)
          | .error e => .error e
        else upcoming_go today rest

/-- `AddressBook.get_upcoming_birthdays`, with `datetime.today()` passed in
as the explicit instant parameter `today` (date plus time of day): for
each record with a birthday, replace its year by the current year and
collect name and formatted date when the midnight occurrence satisfies
`today <= birthday_this_year <= today + timedelta(days=7)`. -/
def AddressBook.get_upcoming_birthdays (book : AddressBook) (today : PyDateTime) :
    Except PyErr (List (String × String)) :=
  upcoming_go today book.records

/-- A handler outcome: the value returned or the exception raised, together
with the book state at that point (in-place mutations that already happened
persist even when an exception follows). -/
abbrev HRes := Except PyErr String × AddressBook

/-- The `@input_error` decorator: catches `ValueError` (returning its
message), `IndexError` (returning a fixed message) and `KeyError` (returning
"Contact not found."); every other exception propagates. -/
def input_error (res : HRes) : HRes :=
  match res with
  | (.ok s, b) => (.ok s, b)
  | (.error (.valueError m), b) => (.ok m, b)
  | (.error (.indexError _), b) => (.ok "Insufficient arguments provided.", b)
  | (.error (.keyError _), b) => (.ok "Contact not found.", b)
  | (.error (.attributeError a), b) => (.error (.attributeError a), b)

/-- `add_contact` before the decorator: create-or-reuse the record, then
(`if phone:`) add the phone when the string is nonempty. -/
def add_contact (args : List String) (book : AddressBook) : HRes :=
  match args with
  | name :: phone :: _ =>
    match book.find name with
    | some record =>
      if phone ≠ "" then
        match record.add_phone phone with
        | .ok r2 => (.ok "Contact updated.", book.setRecord r2)
        | .error e => (.error e, book)
      else (.ok "Contact updated.", book)
    | none =>
      let record := Record.mkNew name
      let book1 := book.add_record record
      if phone ≠ "" then
        match record.add_phone phone with
        | .ok r2 => (.ok "Contact added.", book1.setRecord r2)
        | .error e => (.error e, book1)
      else (.ok "Contact added.", book1)
  | _ => (.error (.indexError "Not enough arguments. Usage: add [name] [phone]"), book)

/-- `change_phone` before the decorator: `find` may return `None`, in which
case `record.remove_phone` raises `AttributeError` (uncaught by the
decorator); otherwise remove the old phone (an in-place mutation that
persists) and add the new one. -/
def change_phone (args : List String) (book : AddressBook) : HRes :=
  match args with
  | name :: old_phone :: new_phone :: _ =>
    match book.find name with
    | none => (.error (.attributeError "remove_phone"), book)
    | some record =>
      let r1 := record.remove_phone old_phone
      let book1 := book.setRecord r1
      match r1.add_phone new_phone with
      | .ok r2 => (.ok "Phone number updated.", book1.setRecord r2)
      | .error e => (.error e, book1)
  | _ => (.error (.indexError "Not enough arguments. Usage: change [name] [old_phone] [new_phone]"), book)

/-- `show_phones` before the decorator: `', '.join(...)` over the record's
phone values; `AttributeError` when `find` returned `None`. -/
def show_phones (args : List String) (book : AddressBook) : HRes :=
  match args with
  | name :: _ =>
    match book.find name with
    | none => (.error (.attributeError "phones"), book)
    | some record => (.ok (String.intercalate ", " record.phones), book)
  | _ => (.error (.indexError "Not enough arguments. Usage: phone [name]"), book)

/-- `show_all` before the decorator: one `name: phones` line per record. -/
def show_all (_args : List String) (book : AddressBook) : HRes :=
  (.ok (String.intercalate "\n"
    (book.records.map (fun r => r.name ++ ": " ++ String.intercalate ", " r.phones))), book)

/-- `add_birthday` (the handler) before the decorator; `AttributeError` when
`find` returned `None`. -/
def add_birthday (args : List String) (book : AddressBook) : HRes :=
  match args with
  | name :: birthday :: _ =>
    match book.find name with
    | none => (.error (.attributeError "add_birthday"), book)
    | some record =>
      match record.add_birthday birthday with
      | .ok r2 => (.ok "Birthday added.", book.setRecord r2)
      | .error e => (.error e, book)
  | _ => (.error (.indexError "Not enough arguments. Usage: add-birthday [name] [birthday]"), book)

/-- `show_birthday` before the decorator; `AttributeError` when `find`
returned `None`. -/
def show_birthday (args : List String) (book : AddressBook) : HRes :=
  match args with
  | name :: _ =>
    match book.find name with
    | none => (.error (.attributeError "birthday"), book)
    | some record =>
      match record.birthday with
      | some d => (.ok (strftime_dmY d), book)
      | none => (.ok "No birthday set.", book)
  | _ => (.error (.indexError "Not enough arguments. Usage: show-birthday [name]"), book)

/-- `birthdays` before the decorator, with `datetime.today()` passed in. -/
def birthdays (_args : List String) (book : AddressBook) (today : PyDateTime) : HRes :=
  match book.get_upcoming_birthdays today with
  | .error e => (.error e, book)
  | .ok l =>
    if l.isEmpty then (.ok "No upcoming birthdays.", book)
    else (.ok (String.intercalate "\n" (l.map (fun p => p.1 ++ " - " ++ p.2))), book)

/-- The decorated handlers, as bound by the dispatch loop in `main`. -/
def add_contact_w (args : List String) (book : AddressBook) : HRes :=
  input_error (add_contact args book)

/-- Decorated `change_phone`. -/
def change_phone_w (args : List String) (book : AddressBook) : HRes :=
  input_error (change_phone args book)

/-- Decorated `show_phones`. -/
def show_phones_w (args : List String) (book : AddressBook) : HRes :=
  input_error (show_phones args book)

/-- Decorated `show_all`. -/
def show_all_w (args : List String) (book : AddressBook) : HRes :=
  input_error (show_all args book)

/-- Decorated `add_birthday`. -/
def add_birthday_w (args : List String) (book : AddressBook) : HRes :=
  input_error (add_birthday args book)

/-- Decorated `show_birthday`. -/
def show_birthday_w (args : List String) (book : AddressBook) : HRes :=
  input_error (show_birthday args book)

/-- Decorated `birthdays`. -/
def birthdays_w (args : List String) (book : AddressBook) (today : PyDateTime) : HRes :=
  input_error (birthdays args book today)

/-- One dispatched command of the read-eval loop (arguments are the
whitespace-split tokens after the command word; `birthdays` also fixes the
clock reading). -/
inductive Command where
  | add (args : List String)
  | change (args : List String)
  | phone (args : List String)
  | all (args : List String)
  | addBirthday (args : List String)
  | showBirthday (args : List String)
  | birthdays (args : List String) (today : PyDateTime)

/-- The book state after one dispatched command. -/
def Command.step (book : AddressBook) : Command → AddressBook
  | .add args => (add_contact_w args book).2
  | .change args => (change_phone_w args book).2
  | .phone args => (show_phones_w args book).2
  | .all args => (show_all_w args book).2
  | .addBirthday args => (add_birthday_w args book).2
  | .showBirthday args => (show_birthday_w args book).2
  | .birthdays args today => (birthdays_w args book today).2

/-- The book state after a sequence of dispatched commands, starting from
the empty book created in `main`. -/
def runCommands (cmds : List Command) : AddressBook :=
  cmds.foldl Command.step AddressBook.empty

/-! Specification-side definitions, stated from the spec's words and used to
compare against the embedded code. -/

/-- Scope restriction for the `str.isdigit` model: strings of ASCII
characters. -/
def ASCIIString (s : String) : Prop :=
  ∀ c ∈ s.data, c.toNat < 128

/-- Spec wording for the phone invariant: a string of exactly 10 decimal
digits. -/
def TenDecimalDigits (s : String) : Prop :=
  s.data.length = 10 ∧ ∀ c ∈ s.data, c.isDigit = true

/-- Spec wording for the strict birthday format: two digits, a dot, two
digits, a dot, four digits (`DD.MM.YYYY`). -/
def matchesDDMMYYYY (s : String) : Bool :=
  match s.data with
  | [d1, d2, p1, m1, m2, p2, y1, y2, y3, y4] =>
    d1.isDigit && d2.isDigit && p1 == '.' && m1.isDigit && m2.isDigit && p2 == '.' &&
      y1.isDigit && y2.isDigit && y3.isDigit && y4.isDigit
  | _ => false

/-- Joins groups with `'.'`; left inverse of `splitDots`. -/
def joinDots : List (List Char) → List Char
  | [] => []
  | [g] => g
  | g :: gs => g ++ '.' :: joinDots gs

/-- The strings accepted by `strptime(s, '%d.%m.%Y')`, described directly:
a day field of one or two digits with value 1..31, a dot, a month field of
one or two digits with value 1..12, a dot, a year field of exactly four
digits, such that the triple is an existing calendar date with year ≥ 1. -/
def LenientDMY (s : String) : Prop :=
  ∃ ds ms ys : List Char,
    s.data = ds ++ '.' :: (ms ++ '.' :: ys) ∧
    (∀ c ∈ ds, c.isDigit = true) ∧ (∀ c ∈ ms, c.isDigit = true) ∧
    (∀ c ∈ ys, c.isDigit = true) ∧
    1 ≤ ds.length ∧ ds.length ≤ 2 ∧ 1 ≤ digitsVal ds ∧ digitsVal ds ≤ 31 ∧
    1 ≤ ms.length ∧ ms.length ≤ 2 ∧ 1 ≤ digitsVal ms ∧ digitsVal ms ≤ 12 ∧
    ys.length = 4 ∧ 1 ≤ digitsVal ys ∧
    digitsVal ds ≤ daysInMonth (digitsVal ys) (digitsVal ms)

/-- Spec wording of the upcoming-birthday query, with the boundary the
code actually implements: for every record with a birthday set, take its
occurrence in the reference year (month/day from the stored birthday, year
from the reference date) and keep it, formatted, when it falls no later
than the reference date plus 7 days and either strictly after the
reference date or on the reference date itself with the clock reading
exactly midnight (the code compares the full current datetime against the
midnight occurrence); records are visited in insertion order. -/
def upcoming_spec (book : AddressBook) (now : PyDateTime) : List (String × String) :=
  book.records.filterMap (fun r =>
    r.birthday.bind (fun b =>
      let occ : PyDate := ⟨b.day, b.month, now.date.year⟩
      if (now.date.toOrd < occ.toOrd ∨ (now.date.toOrd = occ.toOrd ∧ now.micros = 0)) ∧
          occ.toOrd ≤ now.date.toOrd + 7 then
        some (r.name, strftime_dmY occ)
      else none))

/-- The phone-format invariant: every phone stored in every record of the
book is a valid ten-digit string. -/
def PhonesValid (book : AddressBook) : Prop :=
  ∀ r ∈ book.records, ∀ p ∈ r.phones, phone_valid p = true

/-! Helper lemmas. -/

theorem splitDots_ne_nil (cs : List Char) : splitDots cs ≠ [] := by
  induction cs with
  | nil => simp [splitDots]
  | cons c cs ih =>
    rw [splitDots]
    split
    · simp
    · split
      · simp
      · simp

theorem joinDots_splitDots (cs : List Char) : joinDots (splitDots cs) = cs := by
  induction cs with
  | nil => rfl
  | cons c cs ih =>
    rw [splitDots]
    by_cases hc : c = '.'
    · rw [if_pos hc]
      cases h : splitDots cs with
      | nil => exact absurd h (splitDots_ne_nil cs)
      | cons g gs =>
        rw [h] at ih
        subst hc
        simp [joinDots, ih]
    · rw [if_neg hc]
      cases h : splitDots cs with
      | nil => exact absurd h (splitDots_ne_nil cs)
      | cons g gs =>
        rw [h] at ih
        cases gs with
        | nil => simpa [joinDots] using congrArg (c :: ·) ih
        | cons g2 gs2 =>
          simp only [joinDots] at ih ⊢
          rw [List.cons_append, ih]

theorem find?_map_update {l : List Record} {name : String} {r r2 : Record}
    (h : l.find? (fun q => q.name = name) = some r) (h2 : r2.name = name) :
    (l.map (fun q => if q.name = r2.name then r2 else q)).find?
      (fun q => q.name = name) = some r2 := by
  induction l with
  | nil => simp at h
  | cons q l ih =>
    by_cases hq : q.name = name
    · have hq2 : q.name = r2.name := by rw [h2]; exact hq
      simp only [List.map_cons, if_pos hq2]
      exact List.find?_cons_of_pos _ (by simp [h2])
    · have hq2 : ¬ q.name = r2.name := by rw [h2]; exact hq
      rw [List.find?_cons_of_neg _ (by simp [hq])] at h
      simp only [List.map_cons, if_neg hq2]
      rw [List.find?_cons_of_neg _ (by simp [hq])]
      exact ih h

theorem find?_append_singleton {l : List Record} {name : String} {r : Record}
    (h : l.find? (fun q => q.name = name) = none) (hr : r.name = name) :
    (l ++ [r]).find? (fun q => q.name = name) = some r := by
  induction l with
  | nil => simp [hr]
  | cons q l ih =>
    cases hd : decide (q.name = name) with
    | true =>
      rw [@List.find?_cons_of_pos Record (fun q => decide (q.name = name)) q l hd] at h
      simp at h
    | false =>
      have hne : ¬ (decide (q.name = name) = true) := by simp [hd]
      rw [@List.find?_cons_of_neg Record (fun q => decide (q.name = name)) q l hne] at h
      rw [List.cons_append,
        @List.find?_cons_of_neg Record (fun q => decide (q.name = name)) q (l ++ [r]) hne]
      exact ih h

/-- `find` after writing back a record under the name it was found at. -/
theorem AddressBook.find_setRecord {book : AddressBook} {name : String} {r r2 : Record}
    (h : book.find name = some r) (h2 : r2.name = name) :
    (book.setRecord r2).find name = some r2 :=
  find?_map_update h h2

/-- `add_record` of a fresh name appends the record. -/
theorem AddressBook.add_record_of_not_found {book : AddressBook} {r : Record}
    (h : book.find r.name = none) :
    book.add_record r = ⟨book.records ++ [r]⟩ := by
  unfold AddressBook.add_record
  rw [show (book.records.find? fun q => q.name = r.name) = none from h]
  simp

/-- A successful `add_phone` appends the validated value. -/
theorem Record.add_phone_ok {r r2 : Record} {s : String}
    (h : r.add_phone s = .ok r2) :
    phone_valid s = true ∧ r2 = { r with phones := r.phones ++ [s] } := by
  unfold Record.add_phone Phone_init at h
  by_cases hv : phone_valid s = true
  · rw [if_pos hv] at h
    exact ⟨hv, by cases h; rfl⟩
  · simp only [Bool.not_eq_true] at hv
    rw [hv] at h
    simp at h

/-- `add_phone` fails exactly on invalid values, with the `Phone` message. -/
theorem Record.add_phone_err {r : Record} {s : String}
    (h : phone_valid s = false) :
    r.add_phone s = .error (.valueError "Phone number must be 10 digits.") := by
  unfold Record.add_phone Phone_init
  rw [h]
  simp

/-- A successful `add_birthday` keeps the phones. -/
theorem Record.add_birthday_ok {r r2 : Record} {s : String}
    (h : r.add_birthday s = .ok r2) :
    ∃ d, strptime_dmY s = some d ∧ r2 = { r with birthday := some d } := by
  unfold Record.add_birthday Birthday_init at h
  cases hp : strptime_dmY s with
  | none => rw [hp] at h; simp at h
  | some d =>
    rw [hp] at h
    exact ⟨d, rfl, by cases h; rfl⟩

theorem map_update_of_find?_none {l : List Record} {name : String} {r2 : Record}
    (h : l.find? (fun q => q.name = name) = none) (h2 : r2.name = name) :
    l.map (fun q => if q.name = r2.name then r2 else q) = l := by
  induction l with
  | nil => rfl
  | cons q l ih =>
    have hq : ¬ q.name = name := by
      intro hq
      rw [List.find?_cons_of_pos _ (by simp [hq])] at h
      simp at h
    have hq2 : ¬ q.name = r2.name := by rw [h2]; exact hq
    have hnone : l.find? (fun q => q.name = name) = none := by
      rwa [List.find?_cons_of_neg _ (by simp [hq])] at h
    simp only [List.map_cons, if_neg hq2, ih hnone]

/-- Writing back a fresh-named record into a book that did not contain the
name only touches the appended entry. -/
theorem setRecord_append {book : AddressBook} {name : String} {r r2 : Record}
    (h : book.find name = none) (hr : r.name = name) (hr2 : r2.name = name) :
    (⟨book.records ++ [r]⟩ : AddressBook).setRecord r2 = ⟨book.records ++ [r2]⟩ := by
  unfold AddressBook.setRecord
  rw [List.map_append, map_update_of_find?_none h hr2]
  have hrr2 : r.name = r2.name := by rw [hr, hr2]
  simp [hrr2]

/-- `find` over a book extended with a record carrying the looked-up name. -/
theorem find_append_fresh {book : AddressBook} {name : String} {r : Record}
    (h : book.find name = none) (hr : r.name = name) :
    (⟨book.records ++ [r]⟩ : AddressBook).find name = some r :=
  find?_append_singleton h hr

/-- A valid phone value is not the empty string (so `if phone:` takes the
true branch). -/
theorem phone_valid_ne_empty {s : String} (h : phone_valid s = true) : s ≠ "" := by
  intro he
  rw [he] at h
  exact absurd h (by decide)

/-- `add_contact` on a present name with a valid phone. -/
theorem add_contact_found {book : AddressBook} {name phone : String} {r : Record}
    (hfind : book.find name = some r) (hval : phone_valid phone = true) :
    add_contact_w [name, phone] book =
      (.ok "Contact updated.", book.setRecord { r with phones := r.phones ++ [phone] }) := by
  simp only [add_contact_w, add_contact, hfind]
  rw [if_pos (phone_valid_ne_empty hval)]
  unfold Record.add_phone Phone_init
  rw [if_pos hval]
  rfl

/-- `add_contact` on an absent name with a valid phone. -/
theorem add_contact_new {book : AddressBook} {name phone : String}
    (hfind : book.find name = none) (hval : phone_valid phone = true) :
    add_contact_w [name, phone] book =
      (.ok "Contact added.", ⟨book.records ++ [⟨name, [phone], none⟩]⟩) := by
  simp only [add_contact_w, add_contact, hfind]
  rw [if_pos (phone_valid_ne_empty hval)]
  unfold Record.mkNew Record.add_phone Phone_init
  rw [if_pos hval]
  rw [@AddressBook.add_record_of_not_found book ⟨name, [], none⟩ hfind]
  show ((Except.ok "Contact added." : Except PyErr String),
      (⟨book.records ++ [⟨name, [], none⟩]⟩ : AddressBook).setRecord ⟨name, [phone], none⟩) =
    ((Except.ok "Contact added." : Except PyErr String),
      (⟨book.records ++ [⟨name, [phone], none⟩]⟩ : AddressBook))
  rw [setRecord_append hfind rfl rfl]

/-- `add_contact` on an absent name with a nonempty invalid phone: the empty
record is created and stored before `Phone.__init__` raises, and the
decorator turns the `ValueError` into its message. -/
theorem add_contact_new_invalid {book : AddressBook} {name phone : String}
    (hfind : book.find name = none) (hne : phone ≠ "") (hinv : phone_valid phone = false) :
    add_contact_w [name, phone] book =
      (.ok "Phone number must be 10 digits.", ⟨book.records ++ [⟨name, [], none⟩]⟩) := by
  simp only [add_contact_w, add_contact, hfind]
  rw [if_pos hne]
  unfold Record.mkNew Record.add_phone Phone_init
  rw [hinv]
  rw [@AddressBook.add_record_of_not_found book ⟨name, [], none⟩ hfind]
  rfl

/-- `change_phone` on a present name with a valid new phone. -/
theorem change_phone_found {book : AddressBook} {name old new : String} {r : Record}
    (hfind : book.find name = some r) (hval : phone_valid new = true) :
    change_phone_w [name, old, new] book =
      (.ok "Phone number updated.",
        (book.setRecord (r.remove_phone old)).setRecord
          { r.remove_phone old with phones := (r.remove_phone old).phones ++ [new] }) := by
  simp only [change_phone_w, change_phone, hfind]
  unfold Record.add_phone Phone_init
  rw [if_pos hval]
  rfl

/-- `change_phone` on a present name with an invalid new phone: the removal
has already been written back when `Phone.__init__` raises. -/
theorem change_phone_found_invalid {book : AddressBook} {name old new : String} {r : Record}
    (hfind : book.find name = some r) (hinv : phone_valid new = false) :
    change_phone_w [name, old, new] book =
      (.ok "Phone number must be 10 digits.", book.setRecord (r.remove_phone old)) := by
  simp only [change_phone_w, change_phone, hfind]
  unfold Record.add_phone Phone_init
  rw [hinv]
  rfl

/-- `add_birthday` on a present name with a parseable date. -/
theorem add_birthday_found {book : AddressBook} {name s : String} {r : Record} {d : PyDate}
    (hfind : book.find name = some r) (hparse : strptime_dmY s = some d) :
    add_birthday_w [name, s] book =
      (.ok "Birthday added.", book.setRecord { r with birthday := some d }) := by
  simp only [add_birthday_w, add_birthday, hfind]
  unfold Record.add_birthday Birthday_init
  rw [hparse]
  rfl

/-- `show_phones` on a present name joins the record's phones. -/
theorem show_phones_found {book : AddressBook} {name : String} {r : Record}
    (hfind : book.find name = some r) :
    show_phones_w [name] book = (.ok (String.intercalate ", " r.phones), book) := by
  simp only [show_phones_w, show_phones, hfind]
  rfl

/-- `show_birthday` on a present name with a stored birthday formats it. -/
theorem show_birthday_found {book : AddressBook} {name : String} {r : Record} {d : PyDate}
    (hfind : book.find name = some r) (hb : r.birthday = some d) :
    show_birthday_w [name] book = (.ok (strftime_dmY d), book) := by
  simp only [show_birthday_w, show_birthday, hfind, hb]
  rfl

/-- Joining two strings with `', '.join`. -/
theorem intercalate_pair (sep a b : String) : String.intercalate sep [a, b] = a ++ sep ++ b := by
  simp [String.intercalate, String.intercalate.go]

/-- `show_phones` never changes the book. -/
theorem show_phones_w_book (args : List String) (book : AddressBook) :
    (show_phones_w args book).2 = book := by
  cases args with
  | nil => rfl
  | cons name rest =>
    cases h : book.find name with
    | none => simp only [show_phones_w, show_phones, h]; rfl
    | some r => simp only [show_phones_w, show_phones, h]; rfl

/-- `show_all` never changes the book. -/
theorem show_all_w_book (args : List String) (book : AddressBook) :
    (show_all_w args book).2 = book := rfl

/-- `show_birthday` never changes the book. -/
theorem show_birthday_w_book (args : List String) (book : AddressBook) :
    (show_birthday_w args book).2 = book := by
  cases args with
  | nil => rfl
  | cons name rest =>
    cases h : book.find name with
    | none => simp only [show_birthday_w, show_birthday, h]; rfl
    | some r =>
      cases hb : r.birthday with
      | none => simp only [show_birthday_w, show_birthday, h, hb]; rfl
      | some d => simp only [show_birthday_w, show_birthday, h, hb]; rfl

/-- `birthdays` never changes the book. -/
theorem birthdays_w_book (args : List String) (book : AddressBook) (today : PyDateTime) :
    (birthdays_w args book today).2 = book := by
  cases h : book.get_upcoming_birthdays today with
  | error e =>
    cases e <;> simp only [birthdays_w, birthdays, h] <;> rfl
  | ok l =>
    cases hl : l.isEmpty with
    | true => simp only [birthdays_w, birthdays, h, hl]; rfl
    | false => simp only [birthdays_w, birthdays, h, hl]; rfl

/-- The window test of the source — full current datetime against the
midnight occurrence, on the microsecond timeline — characterised at the
date level: the occurrence must lie no later than seven days after the
reference date, and strictly after the reference date unless the clock
reads exactly midnight. -/
theorem in_window_iff (now : PyDateTime) (o : PyDate) (hmic : now.micros < microsPerDay) :
    (now.toMicros ≤ (⟨o, 0⟩ : PyDateTime).toMicros ∧
      (⟨o, 0⟩ : PyDateTime).toMicros ≤ now.toMicros + 7 * microsPerDay) ↔
    ((now.date.toOrd < o.toOrd ∨ (now.date.toOrd = o.toOrd ∧ now.micros = 0)) ∧
      o.toOrd ≤ now.date.toOrd + 7) := by
  simp only [PyDateTime.toMicros, microsPerDay] at hmic ⊢
  omega

/-- The loop of `get_upcoming_birthdays` agrees with the spec-side filter as
long as the time of day is a real one and every stored birthday exists in
the reference year (so that `replace` cannot raise). -/
theorem upcoming_go_spec (now : PyDateTime) (hmic : now.micros < microsPerDay)
    (l : List Record)
    (h : ∀ r ∈ l, ∀ b, r.birthday = some b → b.day ≤ daysInMonth now.date.year b.month) :
    upcoming_go now l = .ok (l.filterMap (fun r =>
      r.birthday.bind (fun b =>
        let occ : PyDate := ⟨b.day, b.month, now.date.year⟩
        if (now.date.toOrd < occ.toOrd ∨ (now.date.toOrd = occ.toOrd ∧ now.micros = 0)) ∧
            occ.toOrd ≤ now.date.toOrd + 7 then
          some (r.name, strftime_dmY occ)
        else none))) := by
  induction l with
  | nil => rfl
  | cons r rest ih =>
    have hrest : ∀ q ∈ rest, ∀ b, q.birthday = some b →
        b.day ≤ daysInMonth now.date.year b.month :=
      fun q hq => h q (List.mem_cons_of_mem _ hq)
    rw [upcoming_go, List.filterMap_cons]
    cases hb : r.birthday with
    | none =>
      simp only [Option.bind]
      exact ih hrest
    | some b =>
      have hday : b.day ≤ daysInMonth now.date.year b.month :=
        h r (List.mem_cons_self _ _) b hb
      have hrep : date_replace_year b now.date.year = .ok ⟨b.day, b.month, now.date.year⟩ := by
        unfold date_replace_year
        rw [if_pos hday]
      simp only [hrep, Option.some_bind]
      by_cases hcode : now.toMicros ≤
          (⟨⟨b.day, b.month, now.date.year⟩, 0⟩ : PyDateTime).toMicros ∧
          (⟨⟨b.day, b.month, now.date.year⟩, 0⟩ : PyDateTime).toMicros ≤
            now.toMicros + 7 * microsPerDay
      · rw [if_pos hcode,
          if_pos ((in_window_iff now ⟨b.day, b.month, now.date.year⟩ hmic).mp hcode),
          ih hrest]
      · rw [if_neg hcode,
          if_neg (fun hs => hcode ((in_window_iff now ⟨b.day, b.month, now.date.year⟩ hmic).mpr hs))]
        exact ih hrest

/-- The record found under a name is one of the book's records. -/
theorem AddressBook.find_mem {book : AddressBook} {name : String} {r : Record}
    (h : book.find name = some r) : r ∈ book.records :=
  List.mem_of_find?_eq_some h

/-- The decorator never changes the book component of a handler result. -/
theorem input_error_snd (res : Except PyErr String) (b : AddressBook) :
    (input_error (res, b)).2 = b := by
  cases res with
  | ok s => rfl
  | error e => cases e <;> rfl

/-- A failed `add_phone` fails with the `Phone` validation error. -/
theorem Record.add_phone_error {r : Record} {s : String} {e : PyErr}
    (h : r.add_phone s = .error e) :
    e = .valueError "Phone number must be 10 digits." := by
  unfold Record.add_phone at h
  cases hp : Phone_init s with
  | ok v => rw [hp] at h; simp at h
  | error e2 =>
    rw [hp] at h
    simp only [Except.error.injEq] at h
    unfold Phone_init at hp
    by_cases hv : phone_valid s = true
    · rw [if_pos hv] at hp; simp at hp
    · rw [if_neg hv] at hp
      simp only [Except.error.injEq] at hp
      rw [← h, ← hp]

/-- A failed `add_birthday` fails with the `Birthday` validation error. -/
theorem Record.add_birthday_error {r : Record} {s : String} {e : PyErr}
    (h : r.add_birthday s = .error e) :
    e = .valueError "Invalid date format. Use DD.MM.YYYY" := by
  unfold Record.add_birthday Birthday_init at h
  cases hp : strptime_dmY s with
  | some d => rw [hp] at h; simp at h
  | none =>
    rw [hp] at h
    simp only [Except.error.injEq] at h
    rw [← h]

theorem PhonesValid.setRecord {book : AddressBook} {r2 : Record}
    (h : PhonesValid book) (h2 : ∀ p ∈ r2.phones, phone_valid p = true) :
    PhonesValid (book.setRecord r2) := by
  intro q hq p hp
  unfold AddressBook.setRecord at hq
  simp only [List.mem_map] at hq
  obtain ⟨q0, hq0, heq⟩ := hq
  by_cases hn : q0.name = r2.name
  · rw [if_pos hn] at heq; subst heq; exact h2 p hp
  · rw [if_neg hn] at heq; subst heq; exact h q0 hq0 p hp

theorem PhonesValid.add_record {book : AddressBook} {r : Record}
    (h : PhonesValid book) (h2 : ∀ p ∈ r.phones, phone_valid p = true) :
    PhonesValid (book.add_record r) := by
  unfold AddressBook.add_record
  by_cases hf : (book.records.find? (fun q => q.name = r.name)).isSome = true
  · rw [if_pos hf]
    exact PhonesValid.setRecord h h2
  · rw [if_neg hf]
    intro q hq p hp
    simp only [List.mem_append, List.mem_singleton] at hq
    cases hq with
    | inl hq => exact h q hq p hp
    | inr hq => subst hq; exact h2 p hp

/-- Phones of a record after `remove_phone` were already present. -/
theorem remove_phone_valid {book : AddressBook} {name : String} (old : String) {r : Record}
    (h : PhonesValid book) (hf : book.find name = some r) :
    ∀ p ∈ (r.remove_phone old).phones, phone_valid p = true := by
  intro p hp
  unfold Record.remove_phone at hp
  simp only [List.mem_filter] at hp
  exact h r (AddressBook.find_mem hf) p hp.1

theorem add_contact_w_preserves (args : List String) (book : AddressBook)
    (h : PhonesValid book) : PhonesValid (add_contact_w args book).2 := by
  match args with
  | [] => exact h
  | [name] => exact h
  | name :: phone :: rest =>
    cases hf : book.find name with
    | some r =>
      simp only [add_contact_w, add_contact, hf]
      by_cases hp : phone ≠ ""
      · rw [if_pos hp]
        cases ha : Record.add_phone r phone with
        | ok r2 =>
          obtain ⟨hval, hr2⟩ := Record.add_phone_ok ha
          subst hr2
          exact PhonesValid.setRecord h (by
            intro p hp2
            simp only [List.mem_append, List.mem_singleton] at hp2
            cases hp2 with
            | inl hmem => exact h r (AddressBook.find_mem hf) p hmem
            | inr hpe => subst hpe; exact hval)
        | error e =>
          have he := Record.add_phone_error ha
          subst he
          exact h
      · rw [if_neg hp]
        exact h
    | none =>
      simp only [add_contact_w, add_contact, hf]
      have hvalid0 : ∀ p ∈ (Record.mkNew name).phones, phone_valid p = true := by
        intro p hp
        simp [Record.mkNew] at hp
      by_cases hp : phone ≠ ""
      · rw [if_pos hp]
        cases ha : Record.add_phone (Record.mkNew name) phone with
        | ok r2 =>
          obtain ⟨hval, hr2⟩ := Record.add_phone_ok ha
          subst hr2
          refine PhonesValid.setRecord (PhonesValid.add_record h hvalid0) ?_
          intro p hp2
          simp only [Record.mkNew, List.nil_append, List.mem_singleton] at hp2
          subst hp2
          exact hval
        | error e =>
          have he := Record.add_phone_error ha
          subst he
          exact PhonesValid.add_record h hvalid0
      · rw [if_neg hp]
        exact PhonesValid.add_record h hvalid0

theorem change_phone_w_preserves (args : List String) (book : AddressBook)
    (h : PhonesValid book) : PhonesValid (change_phone_w args book).2 := by
  match args with
  | [] => exact h
  | [name] => exact h
  | [name, old] => exact h
  | name :: old :: new :: rest =>
    cases hf : book.find name with
    | none => simp only [change_phone_w, change_phone, hf]; exact h
    | some r =>
      simp only [change_phone_w, change_phone, hf]
      have hrm := remove_phone_valid old h hf
      cases ha : Record.add_phone (r.remove_phone old) new with
      | ok r2 =>
        obtain ⟨hval, hr2⟩ := Record.add_phone_ok ha
        subst hr2
        refine PhonesValid.setRecord (PhonesValid.setRecord h hrm) ?_
        intro p hp2
        simp only [List.mem_append, List.mem_singleton] at hp2
        cases hp2 with
        | inl hmem => exact hrm p hmem
        | inr hpe => subst hpe; exact hval
      | error e =>
        have he := Record.add_phone_error ha
        subst he
        exact PhonesValid.setRecord h hrm

theorem add_birthday_w_preserves (args : List String) (book : AddressBook)
    (h : PhonesValid book) : PhonesValid (add_birthday_w args book).2 := by
  match args with
  | [] => exact h
  | [name] => exact h
  | name :: s :: rest =>
    cases hf : book.find name with
    | none => simp only [add_birthday_w, add_birthday, hf]; exact h
    | some r =>
      simp only [add_birthday_w, add_birthday, hf]
      cases ha : Record.add_birthday r s with
      | ok r2 =>
        obtain ⟨d, hd, hr2⟩ := Record.add_birthday_ok ha
        subst hr2
        exact PhonesValid.setRecord h
          (fun p hp => h r (AddressBook.find_mem hf) p hp)
      | error e =>
        have he := Record.add_birthday_error ha
        subst he
        exact h

theorem step_preserves (c : Command) (book : AddressBook)
    (h : PhonesValid book) : PhonesValid (c.step book) := by
  cases c with
  | add args => exact add_contact_w_preserves args book h
  | change args => exact change_phone_w_preserves args book h
  | phone args => rw [Command.step, show_phones_w_book args book]; exact h
  | all args => rw [Command.step, show_all_w_book args book]; exact h
  | addBirthday args => exact add_birthday_w_preserves args book h
  | showBirthday args => rw [Command.step, show_birthday_w_book args book]; exact h
  | birthdays args today => rw [Command.step, birthdays_w_book args book today]; exact h

/-! Claim theorems. -/

/-- C1: the spec says `change`, `phone`, `add-birthday` and `show-birthday`
return "Contact not found." when `find` returns absent; in the code `find`
returns `None`, the handlers dereference it, and the resulting
`AttributeError` is not among the exceptions `input_error` catches, so it
escapes the handler boundary (the decorator's `KeyError` branch is dead
code).  This theorem evaluates all four handlers at an absent name. -/
theorem absent_name_raises_attribute_error :
    change_phone_w ["Bob", "111", "222"] AddressBook.empty =
      (.error (.attributeError "remove_phone"), AddressBook.empty) ∧
    show_phones_w ["Bob"] AddressBook.empty =
      (.error (.attributeError "phones"), AddressBook.empty) ∧
    add_birthday_w ["Bob", "15.06.1990"] AddressBook.empty =
      (.error (.attributeError "add_birthday"), AddressBook.empty) ∧
    show_birthday_w ["Bob"] AddressBook.empty =
      (.error (.attributeError "birthday"), AddressBook.empty) :=
  ⟨rfl, rfl, rfl, rfl⟩

/-- C3: over ASCII strings, constructing a `Phone` fails with the
validation `ValueError` exactly when the value is not a string of exactly
ten decimal digits, and succeeds storing the string unchanged otherwise. -/
theorem phone_validation_iff (s : String) (hascii : ASCIIString s) :
    (Phone_init s = .error (.valueError "Phone number must be 10 digits.") ↔
      ¬ TenDecimalDigits s) ∧
    (TenDecimalDigits s → Phone_init s = .ok s) := by
  have hval : phone_valid s = true ↔ TenDecimalDigits s := by
    unfold phone_valid py_isdigit TenDecimalDigits
    simp only [Bool.and_eq_true, beq_iff_eq, List.all_eq_true, Bool.not_eq_true']
    constructor
    · rintro ⟨⟨hne, hdig⟩, hlen⟩
      exact ⟨hlen, hdig⟩
    · rintro ⟨hlen, hdig⟩
      refine ⟨⟨?_, hdig⟩, hlen⟩
      cases hd : s.data with
      | nil => rw [hd] at hlen; simp at hlen
      | cons c cs => rfl
  refine ⟨⟨fun herr hten => ?_, fun hnot => ?_⟩, fun hten => ?_⟩
  · unfold Phone_init at herr
    rw [if_pos (hval.mpr hten)] at herr
    simp at herr
  · unfold Phone_init
    rw [if_neg (fun hv => hnot (hval.mp hv))]
  · unfold Phone_init
    rw [if_pos (hval.mpr hten)]

/-- Witness for C3 at a valid and an invalid concrete phone value. -/
theorem phone_validation_iff_witness :
    Phone_init "1234567890" = .ok "1234567890" ∧
    Phone_init "123456789a" = .error (.valueError "Phone number must be 10 digits.") := by
  constructor
  · exact (phone_validation_iff "1234567890"
      (by unfold ASCIIString; decide)).2 (by unfold TenDecimalDigits; decide)
  · exact (phone_validation_iff "123456789a"
      (by unfold ASCIIString; decide)).1.mpr (by unfold TenDecimalDigits; decide)

/-- C4 counterexample: the claim says construction fails unless the string
matches `DD.MM.YYYY`, but `strptime('%d.%m.%Y')` accepts an unpadded
one-digit day, so "5.06.1990" succeeds although it does not match the
two-digit-day format. -/
theorem birthday_unpadded_accepted_counterexample :
    Birthday_init "5.06.1990" = .ok ⟨5, 6, 1990⟩ ∧
    matchesDDMMYYYY "5.06.1990" = false :=
  ⟨rfl, rfl⟩

/-- C4 (amended): constructing a Birthday fails with the validation
`ValueError` unless the string is day-dot-month-dot-year with a one- or
two-digit day 1..31, a one- or two-digit month 1..12 (leading zeros
optional, as `strptime` accepts them unpadded) and an exactly four-digit
year, denoting an existing calendar date with year at least 1; in
particular "29.02.2023" (not a leap year) fails and "29.02.2024"
succeeds. -/
theorem birthday_validation_lenient :
    (∀ s d, Birthday_init s = .ok d → LenientDMY s) ∧
    Birthday_init "29.02.2023" = .error (.valueError "Invalid date format. Use DD.MM.YYYY") ∧
    Birthday_init "29.02.2024" = .ok ⟨29, 2, 2024⟩ := by
  refine ⟨?_, rfl, rfl⟩
  intro s d h
  unfold Birthday_init at h
  cases hp : strptime_dmY s with
  | none => rw [hp] at h; exact absurd h (by simp)
  | some d2 =>
    unfold strptime_dmY at hp
    rcases hsplit : splitDots s.data with _ | ⟨ds, _ | ⟨ms, _ | ⟨ys, _ | ⟨g4, gs⟩⟩⟩⟩ <;>
      rw [hsplit] at hp <;> try simp at hp
    have hdata : s.data = ds ++ '.' :: (ms ++ '.' :: ys) := by
      have hj := joinDots_splitDots s.data
      rw [hsplit] at hj
      simpa [joinDots] using hj.symm
    exact ⟨ds, ms, ys, hdata, hp.1⟩

/-- Witness for C4 at the concrete leap-year date. -/
theorem birthday_validation_lenient_witness : LenientDMY "29.02.2024" :=
  birthday_validation_lenient.1 "29.02.2024" ⟨29, 2, 2024⟩ (by rfl)

/-- C7: `remove_phone` removes every phone entry equal to the value, keeps
the remaining phones in their original order (a sublist of the original
list containing every entry different from the value), leaves name and
birthday untouched, and is a no-op when no entry equals the value. -/
theorem remove_phone_spec (r : Record) (v : String) :
    (r.remove_phone v).phones.Sublist r.phones ∧
    v ∉ (r.remove_phone v).phones ∧
    (∀ p ∈ r.phones, p ≠ v → p ∈ (r.remove_phone v).phones) ∧
    (r.remove_phone v).name = r.name ∧ (r.remove_phone v).birthday = r.birthday ∧
    (v ∉ r.phones → r.remove_phone v = r) := by
  refine ⟨List.filter_sublist _, ?_, ?_, rfl, rfl, ?_⟩
  · intro hmem
    simp only [Record.remove_phone, List.mem_filter] at hmem
    simp at hmem
  · intro p hp hne
    simp only [Record.remove_phone, List.mem_filter]
    exact ⟨hp, by simpa using hne⟩
  · intro hnot
    have hfil : r.phones.filter (fun p => decide (p ≠ v)) = r.phones := by
      rw [List.filter_eq_self]
      intro a ha
      simpa using fun h : a = v => hnot (h ▸ ha)
    simp only [Record.remove_phone]
    rw [hfil]

/-- Witness for C7 on a concrete record with a duplicate entry. -/
theorem remove_phone_spec_witness :
    ("1112223330" : String) ∉
      (Record.remove_phone ⟨"Bob", ["1112223330", "2223334440", "1112223330"], none⟩
        "1112223330").phones ∧
    ("2223334440" : String) ∈
      (Record.remove_phone ⟨"Bob", ["1112223330", "2223334440", "1112223330"], none⟩
        "1112223330").phones ∧
    Record.remove_phone ⟨"Bob", ["2223334440"], none⟩ "1112223330" =
      ⟨"Bob", ["2223334440"], none⟩ := by
  refine ⟨(remove_phone_spec ⟨"Bob", ["1112223330", "2223334440", "1112223330"], none⟩
      "1112223330").2.1, ?_, ?_⟩
  · exact (remove_phone_spec ⟨"Bob", ["1112223330", "2223334440", "1112223330"], none⟩
      "1112223330").2.2.1 "2223334440" (by decide) (by decide)
  · exact (remove_phone_spec ⟨"Bob", ["2223334440"], none⟩
      "1112223330").2.2.2.2.2 (by decide)

/-- C2 counterexample: with a Feb-29 birthday stored and a non-leap
reference year, `replace(year=...)` raises
`ValueError("day is out of range for month")` inside
`get_upcoming_birthdays`, so the method does not return the spec-side list
of (name, occurrence) pairs for every directory and reference date. -/
theorem upcoming_birthdays_feb29_counterexample :
    (⟨[⟨"Ann", [], some ⟨29, 2, 2024⟩⟩]⟩ : AddressBook).get_upcoming_birthdays
      ⟨⟨10, 6, 2023⟩, 0⟩ = .error (.valueError "day is out of range for month") ∧
    (⟨[⟨"Ann", [], some ⟨29, 2, 2024⟩⟩]⟩ : AddressBook).get_upcoming_birthdays
      ⟨⟨10, 6, 2023⟩, 0⟩ ≠
      .ok (upcoming_spec ⟨[⟨"Ann", [], some ⟨29, 2, 2024⟩⟩]⟩ ⟨⟨10, 6, 2023⟩, 0⟩) := by
  refine ⟨rfl, fun hcontra => ?_⟩
  rw [show (⟨[⟨"Ann", [], some ⟨29, 2, 2024⟩⟩]⟩ : AddressBook).get_upcoming_birthdays
      ⟨⟨10, 6, 2023⟩, 0⟩ = .error (.valueError "day is out of range for month")
    from rfl] at hcontra
  exact Except.noConfusion hcontra

/-- C2 (amended): for every real reference instant (time of day below one
day), whenever every stored birthday's month/day combination exists in the
reference year (no Feb-29 birthday against a non-leap reference year),
`get_upcoming_birthdays` returns, in record insertion order, exactly the
(name, occurrence) pairs of records with a birthday set whose occurrence
in the reference year falls no later than the reference date plus 7 days
and after the reference instant — so the reference date itself counts only
when the clock reads exactly midnight, because the code compares the full
current datetime against the midnight occurrence.  The two closed
conjuncts exhibit the lower boundary: a birthday occurring on the
reference date is excluded one microsecond after midnight and included at
exactly midnight. -/
theorem upcoming_birthdays_correct :
    (∀ book now, now.micros < microsPerDay →
      (∀ r ∈ book.records, ∀ b, r.birthday = some b →
        b.day ≤ daysInMonth now.date.year b.month) →
      AddressBook.get_upcoming_birthdays book now = .ok (upcoming_spec book now)) ∧
    (⟨[⟨"Eve", [], some ⟨12, 6, 1990⟩⟩]⟩ : AddressBook).get_upcoming_birthdays
      ⟨⟨12, 6, 2024⟩, 1⟩ = .ok [] ∧
    (⟨[⟨"Eve", [], some ⟨12, 6, 1990⟩⟩]⟩ : AddressBook).get_upcoming_birthdays
      ⟨⟨12, 6, 2024⟩, 0⟩ = .ok [("Eve", "12.06.2024")] :=
  ⟨fun book now hmic h => upcoming_go_spec now hmic book.records h, rfl, rfl⟩

/-- Witness for C2: with today = 10.06.2024 at noon, a contact with
birthday 12.06.1990 is reported with occurrence "12.06.2024". -/
theorem upcoming_birthdays_correct_witness :
    (⟨[⟨"Dana", [], some ⟨12, 6, 1990⟩⟩]⟩ : AddressBook).get_upcoming_birthdays
      ⟨⟨10, 6, 2024⟩, 43200000000⟩ = .ok [("Dana", "12.06.2024")] := by
  refine (upcoming_birthdays_correct.1 ⟨[⟨"Dana", [], some ⟨12, 6, 1990⟩⟩]⟩
    ⟨⟨10, 6, 2024⟩, 43200000000⟩ (by decide) ?_).trans (by rfl)
  intro r hr b hb
  simp only [List.mem_singleton] at hr
  subst hr
  rw [show (⟨"Dana", [], some ⟨12, 6, 1990⟩⟩ : Record).birthday = some ⟨12, 6, 1990⟩
    from rfl] at hb
  injection hb with heq
  subst heq
  decide

/-- C5: `add` with a valid ten-digit phone stores a new record and reports
"Contact added." when the name is absent, appends to the existing record
and reports "Contact updated." when it is present, and after two adds on a
fresh name `phone` lists both values comma-separated in insertion order. -/
theorem add_contact_spec :
    (∀ book name phone, phone_valid phone = true → AddressBook.find book name = none →
      add_contact_w [name, phone] book =
        (.ok "Contact added.", ⟨book.records ++ [⟨name, [phone], none⟩]⟩)) ∧
    (∀ book name phone r, phone_valid phone = true → AddressBook.find book name = some r →
      add_contact_w [name, phone] book =
        (.ok "Contact updated.", book.setRecord { r with phones := r.phones ++ [phone] })) ∧
    (∀ book name p1 p2, phone_valid p1 = true → phone_valid p2 = true →
      AddressBook.find book name = none →
      (add_contact_w [name, p2] (add_contact_w [name, p1] book).2).1 = .ok "Contact updated." ∧
      show_phones_w [name] (add_contact_w [name, p2] (add_contact_w [name, p1] book).2).2 =
        (.ok (p1 ++ ", " ++ p2),
          (add_contact_w [name, p2] (add_contact_w [name, p1] book).2).2)) := by
  refine ⟨fun book name phone hval habs => add_contact_new habs hval,
    fun book name phone r hval hf => add_contact_found hf hval, ?_⟩
  intro book name p1 p2 hv1 hv2 habs
  have hb1 : (add_contact_w [name, p1] book).2 = ⟨book.records ++ [⟨name, [p1], none⟩]⟩ := by
    rw [add_contact_new habs hv1]
  have hf1 : (⟨book.records ++ [⟨name, [p1], none⟩]⟩ : AddressBook).find name =
      some ⟨name, [p1], none⟩ := find_append_fresh habs rfl
  have h2 := add_contact_found hf1 hv2
  constructor
  · rw [hb1, h2]
  · rw [hb1, h2]
    have hfind2 := AddressBook.find_setRecord hf1
      (rfl : ({ (⟨name, [p1], none⟩ : Record) with
        phones := (⟨name, [p1], none⟩ : Record).phones ++ [p2] } : Record).name = name)
    rw [show_phones_found hfind2]
    refine congrArg (fun s => ((Except.ok s : Except PyErr String), _)) ?_
    exact intercalate_pair ", " p1 p2

/-- Witness for C5: the two adds on "Alice" and the phone listing. -/
theorem add_contact_spec_witness :
    add_contact_w ["Alice", "1111111111"] AddressBook.empty =
      (.ok "Contact added.", ⟨[⟨"Alice", ["1111111111"], none⟩]⟩) ∧
    (add_contact_w ["Alice", "2222222222"]
        (add_contact_w ["Alice", "1111111111"] AddressBook.empty).2).1 =
      .ok "Contact updated." ∧
    show_phones_w ["Alice"]
        (add_contact_w ["Alice", "2222222222"]
          (add_contact_w ["Alice", "1111111111"] AddressBook.empty).2).2 =
      (.ok "1111111111, 2222222222",
        (add_contact_w ["Alice", "2222222222"]
          (add_contact_w ["Alice", "1111111111"] AddressBook.empty).2).2) := by
  have h1 := add_contact_spec.1 AddressBook.empty "Alice" "1111111111" rfl rfl
  have h3 := add_contact_spec.2.2 AddressBook.empty "Alice" "1111111111" "2222222222"
    rfl rfl rfl
  exact ⟨h1, h3.1, h3.2⟩

/-- C6: for an existing record, `add-birthday` with a string accepted by
validation stores the parsed date and reports "Birthday added.", and
`show-birthday` then returns the stored date formatted as DD.MM.YYYY. -/
theorem add_show_birthday_roundtrip (book : AddressBook) (name : String) (r : Record)
    (s : String) (d : PyDate) (hfind : book.find name = some r)
    (hparse : strptime_dmY s = some d) :
    add_birthday_w [name, s] book =
      (.ok "Birthday added.", book.setRecord { r with birthday := some d }) ∧
    show_birthday_w [name] (book.setRecord { r with birthday := some d }) =
      (.ok (strftime_dmY d), book.setRecord { r with birthday := some d }) := by
  have hname : ({ r with birthday := some d } : Record).name = name := by
    have hp := List.find?_some hfind
    exact (by simpa using hp : r.name = name)
  exact ⟨add_birthday_found hfind hparse,
    show_birthday_found (AddressBook.find_setRecord hfind hname) rfl⟩

/-- Witness for C6: the Carl example round-trips "15.06.1990". -/
theorem add_show_birthday_roundtrip_witness :
    add_birthday_w ["Carl", "15.06.1990"] ⟨[⟨"Carl", [], none⟩]⟩ =
      (.ok "Birthday added.", ⟨[⟨"Carl", [], some ⟨15, 6, 1990⟩⟩]⟩) ∧
    show_birthday_w ["Carl"] ⟨[⟨"Carl", [], some ⟨15, 6, 1990⟩⟩]⟩ =
      (.ok "15.06.1990", ⟨[⟨"Carl", [], some ⟨15, 6, 1990⟩⟩]⟩) :=
  add_show_birthday_roundtrip ⟨[⟨"Carl", [], none⟩]⟩ "Carl" ⟨"Carl", [], none⟩
    "15.06.1990" ⟨15, 6, 1990⟩ rfl rfl

/-- C8 counterexample: with the empty phone string (which is not a string
of ten digits) `add` on an absent name reports "Contact added." rather
than the validation message, because of the `if phone:` guard; the empty
record is stored all the same. -/
theorem add_contact_empty_phone_counterexample :
    add_contact_w ["Bob", ""] AddressBook.empty =
      (.ok "Contact added.", ⟨[⟨"Bob", [], none⟩]⟩) ∧
    phone_valid "" = false :=
  ⟨rfl, rfl⟩

/-- C8 (amended): for an absent name and a nonempty phone string that is
not ten digits, `add` returns the validation message yet has already
stored a record with that name and an empty phone list, so a subsequent
`add` for the same name with a valid phone returns "Contact updated."
(the failed add is not atomic). -/
theorem add_contact_invalid_phone_not_atomic (book : AddressBook) (name phone : String)
    (hne : phone ≠ "") (hinv : phone_valid phone = false)
    (habs : book.find name = none) :
    add_contact_w [name, phone] book =
      (.ok "Phone number must be 10 digits.", ⟨book.records ++ [⟨name, [], none⟩]⟩) ∧
    (⟨book.records ++ [⟨name, [], none⟩]⟩ : AddressBook).find name = some ⟨name, [], none⟩ ∧
    (∀ p2, phone_valid p2 = true →
      add_contact_w [name, p2] ⟨book.records ++ [⟨name, [], none⟩]⟩ =
        (.ok "Contact updated.",
          (⟨book.records ++ [⟨name, [], none⟩]⟩ : AddressBook).setRecord ⟨name, [p2], none⟩)) := by
  refine ⟨add_contact_new_invalid habs hne hinv, find_append_fresh habs rfl, ?_⟩
  intro p2 hv2
  exact add_contact_found (find_append_fresh habs rfl) hv2

/-- Witness for C8 at a concrete short phone value. -/
theorem add_contact_invalid_phone_not_atomic_witness :
    add_contact_w ["Bob", "12345"] AddressBook.empty =
      (.ok "Phone number must be 10 digits.", ⟨[⟨"Bob", [], none⟩]⟩) ∧
    add_contact_w ["Bob", "1234567890"] ⟨[⟨"Bob", [], none⟩]⟩ =
      (.ok "Contact updated.", ⟨[⟨"Bob", ["1234567890"], none⟩]⟩) := by
  have h := add_contact_invalid_phone_not_atomic AddressBook.empty "Bob" "12345"
    (by decide) rfl rfl
  exact ⟨h.1, h.2.2 "1234567890" rfl⟩

/-- C9: `change` on an existing record containing the old phone, given a
new phone that is not ten digits, returns the validation message and
leaves the record with every occurrence of the old phone removed and the
new phone not added (the failed change is not atomic). -/
theorem change_phone_invalid_new_not_atomic (book : AddressBook) (name old new : String)
    (r : Record) (hfind : book.find name = some r) (hold : old ∈ r.phones)
    (hinv : phone_valid new = false) :
    change_phone_w [name, old, new] book =
      (.ok "Phone number must be 10 digits.", book.setRecord (r.remove_phone old)) ∧
    (book.setRecord (r.remove_phone old)).find name = some (r.remove_phone old) ∧
    old ∉ (r.remove_phone old).phones ∧
    (r.remove_phone old).phones = r.phones.filter (fun p => p ≠ old) ∧
    (new ∉ r.phones → new ∉ (r.remove_phone old).phones) := by
  have hname : (r.remove_phone old).name = name := by
    have hp := List.find?_some hfind
    exact (by simpa using hp : r.name = name)
  refine ⟨change_phone_found_invalid hfind hinv,
    AddressBook.find_setRecord hfind hname, ?_, rfl, ?_⟩
  · intro hmem
    simp only [Record.remove_phone, List.mem_filter] at hmem
    simp at hmem
  · intro hnot hmem
    simp only [Record.remove_phone, List.mem_filter] at hmem
    exact hnot hmem.1

/-- Witness for C9 on a concrete record. -/
theorem change_phone_invalid_new_not_atomic_witness :
    change_phone_w ["Amy", "1112223330", "12"]
        ⟨[⟨"Amy", ["1112223330", "2223334440"], none⟩]⟩ =
      (.ok "Phone number must be 10 digits.", ⟨[⟨"Amy", ["2223334440"], none⟩]⟩) := by
  have h := change_phone_invalid_new_not_atomic
    ⟨[⟨"Amy", ["1112223330", "2223334440"], none⟩]⟩ "Amy" "1112223330" "12"
    ⟨"Amy", ["1112223330", "2223334440"], none⟩ rfl (by decide) rfl
  exact h.1

/-- C10: starting from the empty book created in `main`, after any sequence
of dispatched commands every phone value stored in every record of the
directory is a valid ten-digit string. -/
theorem phones_invariant (cmds : List Command) : PhonesValid (runCommands cmds) := by
  suffices h : ∀ book, PhonesValid book → PhonesValid (cmds.foldl Command.step book) by
    refine h AddressBook.empty ?_
    intro r hr
    simp [AddressBook.empty] at hr
  induction cmds with
  | nil => intro book hb; exact hb
  | cons c cs ih =>
    intro book hb
    exact ih (Command.step book c) (step_preserves c book hb)

/-- Witness for C10: applies the invariant to the phone stored by a
concrete `add` command. -/
theorem phones_invariant_witness : phone_valid "1234567890" = true :=
  phones_invariant [Command.add ["Alice", "1234567890"]]
    ⟨"Alice", ["1234567890"], none⟩ (by decide) "1234567890" (by decide)

end HW7